import Mathlib

set_option maxHeartbeats 1000000
set_option maxRecDepth 40000

/-
  Verification of the bfdb brainfuck debugger against its design
  specification.  The definitions below are a shallow embedding of the most
  complete source revision (the one with source-position tracking, counted
  stepping and the tape window): the compiler `compile`, the virtual machine
  `dbg_interpret`, and the debugger actions `dbg_next`, `dbg_jump`,
  `dbg_run`, `dbg_load`.  Machine integers (`unsigned short`) are modelled
  as `Nat` with explicit reduction modulo 2^16 where the source can wrap.
  The C code mutates a global `program_t` / `runtime_t` in place; here the
  state is passed and returned explicitly.  Output (`putchar`, and all
  `printf` diagnostics) has no effect on the debugger state and is not
  modelled; `getchar` input is modelled as a list of values consumed by
  `OP_IN` (end of input yields the sentinel 65535, the value the source's
  cast of EOF stores into a cell).
-/

namespace Bfdb

/-- Capacity of the compiled instruction array (`PROGRAM_SIZE`). -/
def PROGRAM_SIZE : Nat := 4096

/-- Capacity of the compile-time bracket stack (`STACK_SIZE`). -/
def STACK_SIZE : Nat := 512

/-- Number of tape cells (`DATA_SIZE`). -/
def DATA_SIZE : Nat := 65535

/-- Modulus of the C `unsigned short` type used for cells, pc and operands. -/
def USHORT_MOD : Nat := 65536

/-- Opcode `OP_END` of the C enum. -/
def OP_END : Nat := 0

/-- Opcode `OP_INC` (`>`). -/
def OP_INC : Nat := 1

/-- Opcode `OP_DEC` (`<`). -/
def OP_DEC : Nat := 2

/-- Opcode `OP_ADD` (`+`). -/
def OP_ADD : Nat := 3

/-- Opcode `OP_SUB` (`-`). -/
def OP_SUB : Nat := 4

/-- Opcode `OP_OUT` (`.`). -/
def OP_OUT : Nat := 5

/-- Opcode `OP_IN` (`,`). -/
def OP_IN : Nat := 6

/-- Opcode `OP_JMP` (`[`). -/
def OP_JMP : Nat := 7

/-- Opcode `OP_RET` (`]`). -/
def OP_RET : Nat := 8

/-- An instruction: an operator and an operand (both `unsigned short`). -/
structure instruction_t where
  operator : Nat
  operand : Nat
deriving DecidableEq

/-- The program structure: instruction array, instruction count, and the
compile-time bracket stack (`stack` together with `esp`; the stack is
modelled as a list whose head is the top slot `stack[esp-1]`, so `esp`
is the list length). -/
structure program_t where
  instructions : Nat → instruction_t
  instr_count : Nat
  stack : List Nat

/-- Write the operator field of instruction slot `i` (an `unsigned short`
store, hence the reduction). -/
def writeOperator (f : Nat → instruction_t) (i v : Nat) : Nat → instruction_t :=
  fun j => if j = i then ⟨v % USHORT_MOD, (f i).operand⟩ else f j

/-- Write the operand field of instruction slot `i`. -/
def writeOperand (f : Nat → instruction_t) (i v : Nat) : Nat → instruction_t :=
  fun j => if j = i then ⟨(f i).operator, v % USHORT_MOD⟩ else f j

/-- The kind of a compilation failure, identified by which of the four
`return false` paths of `compile` was taken. -/
inductive CompileErrKind where
  | loopNestingOverflow
  | unmatchedCloseBracket
  | programTooLarge
  | unmatchedOpenBracket
deriving DecidableEq

/-- A compilation failure: its kind, and the 1-based line/column passed to
`compile_error` when that reporting function was called (`none` when the
failure path returns `false` without calling `compile_error`, as the
unmatched-open-bracket path does). -/
structure CompileError where
  kind : CompileErrKind
  reported : Option (Nat × Nat)
deriving DecidableEq

/-- The local state of `compile`'s scanning loop: the program being built
and the locals `pc`, `line`, `col`. -/
structure CompSt where
  prog : program_t
  pc : Nat
  line : Nat
  col : Nat

/-- Line update performed at the bottom of `compile`'s loop for a consumed
character. -/
def nextLine (c : Char) (line : Nat) : Nat :=
  if c = '\n' then line + 1 else line

/-- Column update performed at the bottom of `compile`'s loop for a
consumed character. -/
def nextCol (c : Char) (col : Nat) : Nat :=
  if c = '\n' then 1 else col + 1

/-- One iteration of `compile`'s character loop: the `switch` on the
character, the trailing `pc++`, and the line/column update.  An error
result carries the program as mutated so far, since the C code returns
`false` leaving the partial writes in place. -/
def compileStep (c : Char) (st : CompSt) : Except (program_t × CompileError) CompSt :=
  let p := st.prog
  let afterSwitch : Except (program_t × CompileError) (program_t × Nat) :=
    if c = '>' then
      .ok ({ p with instructions := writeOperator p.instructions st.pc OP_INC },
           (st.pc + 1) % USHORT_MOD)
    else if c = '<' then
      .ok ({ p with instructions := writeOperator p.instructions st.pc OP_DEC },
           (st.pc + 1) % USHORT_MOD)
    else if c = '+' then
      .ok ({ p with instructions := writeOperator p.instructions st.pc OP_ADD },
           (st.pc + 1) % USHORT_MOD)
    else if c = '-' then
      .ok ({ p with instructions := writeOperator p.instructions st.pc OP_SUB },
           (st.pc + 1) % USHORT_MOD)
    else if c = '.' then
      .ok ({ p with instructions := writeOperator p.instructions st.pc OP_OUT },
           (st.pc + 1) % USHORT_MOD)
    else if c = ',' then
      .ok ({ p with instructions := writeOperator p.instructions st.pc OP_IN },
           (st.pc + 1) % USHORT_MOD)
    else if c = '[' then
      let p1 := { p with instructions := writeOperator p.instructions st.pc OP_JMP }
      if p1.stack.length = STACK_SIZE then
        .error (p1, ⟨.loopNestingOverflow, some (st.line, st.col)⟩)
      else
        .ok ({ p1 with stack := st.pc :: p1.stack }, (st.pc + 1) % USHORT_MOD)
    else if c = ']' then
      match p.stack with
      | [] => .error (p, ⟨.unmatchedCloseBracket, some (st.line, st.col)⟩)
      | jmp_pc :: rest =>
        let i1 := writeOperator p.instructions st.pc OP_RET
        let i2 := writeOperand i1 st.pc jmp_pc
        let i3 := writeOperator i2 jmp_pc st.pc
        .ok ({ p with instructions := i3, stack := rest }, (st.pc + 1) % USHORT_MOD)
    else
      .ok (p, ((st.pc + (USHORT_MOD - 1)) % USHORT_MOD + 1) % USHORT_MOD)
  match afterSwitch with
  | .error e => .error e
  | .ok (p', pc') => .ok ⟨p', pc', nextLine c st.line, nextCol c st.col⟩

/-- The scanning loop of `compile`: read characters while any remain and
`pc < PROGRAM_SIZE`.  When `pc` has reached the capacity the next
character is consumed by the loop condition and the loop exits without
processing it, exactly as the C short-circuit condition does. -/
def compileLoop : List Char → CompSt → CompSt × Option CompileError
  | [], st => (st, none)
  | c :: cs, st =>
    if st.pc < PROGRAM_SIZE then
      match compileStep c st with
      | .ok st' => compileLoop cs st'
      | .error (p, e) => (⟨p, st.pc, st.line, st.col⟩, some e)
    else
      (st, none)

/-- The result of `compile`: the program structure as left behind (the C
code mutates it in place even on failure) and the failure, if any. -/
structure CompileResult where
  prog : program_t
  err : Option CompileError

/-- The compiler `compile(fp, prog)`: scan the source, then the epilogue
checks `pc == PROGRAM_SIZE` and `esp != 0` (in that order; the latter
returns `false` without reporting), and on success writes the `OP_END`
terminator and the instruction count. -/
def compile (source : List Char) (prog : program_t) : CompileResult :=
  match compileLoop source ⟨prog, 0, 1, 1⟩ with
  | (st, some e) => ⟨st.prog, some e⟩
  | (st, none) =>
    if st.pc = PROGRAM_SIZE then
      ⟨st.prog, some ⟨.programTooLarge, some (st.line, st.col)⟩⟩
    else if st.prog.stack.length ≠ 0 then
      ⟨st.prog, some ⟨.unmatchedOpenBracket, none⟩⟩
    else
      ⟨{ st.prog with
           instructions := writeOperator st.prog.instructions st.pc OP_END,
           instr_count := st.pc + 1 }, none⟩

/-- The running brainfuck instance: `running`, the cells, the program
counter and the data pointer. -/
structure runtime_t where
  running : Bool
  data : Nat → Nat
  pc : Nat
  ptr : Nat

/-- Which runtime error `dbg_runtime_error` was invoked with. -/
inductive FaultKind where
  | pointerOverflow
  | pointerUnderflow
deriving DecidableEq

/-- Outcome of one `dbg_interpret` call: `cont` is the `return false` path,
`halted` the `OP_END` path, `fault` a `dbg_runtime_error` path (the C
function returns `true` for both of the latter). -/
inductive StepOutcome where
  | cont
  | halted
  | fault (k : FaultKind)
deriving DecidableEq

/-- Write a tape cell (an `unsigned short` store). -/
def writeCell (f : Nat → Nat) (i v : Nat) : Nat → Nat :=
  fun j => if j = i then v % USHORT_MOD else f j

/-- The virtual machine step `dbg_interpret(runtime, instruction)`:
dispatch on the operator, then `pc++` on the non-terminating path.  On a
fault, `dbg_runtime_error` stops the runtime (`running = false`) and `pc`
is left untouched.  `inps` is the pending `getchar` input. -/
def dbg_interpret (rt : runtime_t) (instruction : instruction_t) (inps : List Nat) :
    runtime_t × StepOutcome × List Nat :=
  if instruction.operator = OP_END then
    ({ rt with running := false }, .halted, inps)
  else
    let dispatch : Except FaultKind (runtime_t × List Nat) :=
      if instruction.operator = OP_INC then
        if rt.ptr + 1 < DATA_SIZE then .ok ({ rt with ptr := rt.ptr + 1 }, inps)
        else .error .pointerOverflow
      else if instruction.operator = OP_DEC then
        if rt.ptr > 0 then .ok ({ rt with ptr := rt.ptr - 1 }, inps)
        else .error .pointerUnderflow
      else if instruction.operator = OP_ADD then
        .ok ({ rt with data := writeCell rt.data rt.ptr (rt.data rt.ptr + 1) }, inps)
      else if instruction.operator = OP_SUB then
        .ok ({ rt with data := writeCell rt.data rt.ptr (rt.data rt.ptr + (USHORT_MOD - 1)) }, inps)
      else if instruction.operator = OP_OUT then
        .ok (rt, inps)
      else if instruction.operator = OP_IN then
        .ok ({ rt with data := writeCell rt.data rt.ptr (inps.headD (USHORT_MOD - 1)) }, inps.tail)
      else if instruction.operator = OP_JMP then
        if rt.data rt.ptr = 0 then .ok ({ rt with pc := instruction.operand }, inps)
        else .ok (rt, inps)
      else if instruction.operator = OP_RET then
        if rt.data rt.ptr ≠ 0 then .ok ({ rt with pc := instruction.operand }, inps)
        else .ok (rt, inps)
      else
        .ok (rt, inps)
    match dispatch with
    | .ok (rt', inps') => ({ rt' with pc := (rt'.pc + 1) % USHORT_MOD }, .cont, inps')
    | .error k => ({ rt with running := false }, .fault k, inps)

/-- The stepping loop of `dbg_next(count)`: up to `count` calls of
`dbg_interpret` on the instruction at the current pc, breaking as soon as
one reports termination; the returned `Bool` is `dbg_next`'s return
value. -/
def dbg_next_loop (prog : program_t) : Nat → runtime_t → List Nat → runtime_t × Bool × List Nat
  | 0, rt, inps => (rt, false, inps)
  | Nat.succ n, rt, inps =>
    let r := dbg_interpret rt (prog.instructions rt.pc) inps
    if r.2.1 ≠ StepOutcome.cont then (r.1, true, r.2.2)
    else dbg_next_loop prog n r.1 r.2.2

/-- `dbg_next(count)`: a negative count is rejected up front (a message is
printed and `false` returned, with no state change); otherwise the loop
runs. -/
def dbg_next (prog : program_t) (count : Int) (rt : runtime_t) (inps : List Nat) :
    runtime_t × Bool × List Nat :=
  if count < 0 then (rt, false, inps)
  else dbg_next_loop prog count.toNat rt inps

/-- `dbg_jump(prog, index)`: an index outside `[1, instr_count]` only
prints a message; otherwise `pc` is set to `index - 1` (an `unsigned
short` store). -/
def dbg_jump (prog : program_t) (index : Int) (rt : runtime_t) : runtime_t :=
  if index < 1 ∨ index > (prog.instr_count : Int) then rt
  else { rt with pc := (index - 1).toNat % USHORT_MOD }

/-- `dbg_run()`: zero the tape, reset `pc` and `ptr`, mark running. -/
def dbg_run (rt : runtime_t) : runtime_t :=
  { rt with data := fun _ => 0, pc := 0, ptr := 0, running := true }

/-- The debugger session: the global `program`, `loaded` flag and
`runtime`. -/
structure DbgState where
  program : program_t
  loaded : Bool
  runtime : runtime_t

/-- `dbg_load(file_name)`: always stop the running session first; when the
file cannot be opened (`contents = none`) nothing else happens; otherwise
compile into the global program and set `loaded` from the result. -/
def dbg_load (contents : Option (List Char)) (st : DbgState) : DbgState :=
  let st1 : DbgState := { st with runtime := { st.runtime with running := false } }
  match contents with
  | none => st1
  | some cs =>
    let r := compile cs st1.program
    { st1 with program := r.prog, loaded := r.err.isNone }

/-- `cmd_next(count)`: rejected with a message when the program is not
being run; a non-numeric argument is rejected by `to_int` (modelled as
`count = none` meaning no argument, `some c` a parsed numeric argument;
`to_int` with `allow_neg = false` rejects a negative before `dbg_next` is
called). -/
def cmd_next (prog : program_t) (count : Option Int) (rt : runtime_t) (inps : List Nat) :
    runtime_t × List Nat :=
  if rt.running then
    match count with
    | some c =>
      if c < 0 then (rt, inps)
      else
        let r := dbg_next prog c rt inps
        (r.1, r.2.2)
    | none =>
      let r := dbg_next prog 1 rt inps
      (r.1, r.2.2)
  else (rt, inps)

/-- The loop of `cmd_continue`: repeat `dbg_next(1)` until it returns
`true`.  The C loop is unbounded (the design accepts divergence on a
non-terminating debuggee); `fuel` bounds the model. -/
def cmd_continue_loop (prog : program_t) : Nat → runtime_t → List Nat → runtime_t × List Nat
  | 0, rt, inps => (rt, inps)
  | Nat.succ n, rt, inps =>
    let r := dbg_next prog 1 rt inps
    if r.2.1 then (r.1, r.2.2) else cmd_continue_loop prog n r.1 r.2.2

/-- `cmd_continue`: rejected with a message when not running. -/
def cmd_continue (prog : program_t) (fuel : Nat) (rt : runtime_t) (inps : List Nat) :
    runtime_t × List Nat :=
  if rt.running then cmd_continue_loop prog fuel rt inps else (rt, inps)

/-- `dbg_print_dataptr` only prints; the state is unchanged. -/
def dbg_print_dataptr (rt : runtime_t) : runtime_t := rt

/-- `dbg_print(index)` only prints; the state is unchanged. -/
def dbg_print (_index : Int) (rt : runtime_t) : runtime_t := rt

/-- `dbg_print_tape` only prints; the state is unchanged. -/
def dbg_print_tape (rt : runtime_t) : runtime_t := rt

/-- The zero-initialised global `program` of the C file. -/
def initProgram : program_t := ⟨fun _ => ⟨0, 0⟩, 0, []⟩

/-- The initial global `runtime` of the C file. -/
def initRuntime : runtime_t := ⟨false, fun _ => 0, 0, 0⟩

/-- The initial debugger session (nothing loaded). -/
def initDbg : DbgState := ⟨initProgram, false, initRuntime⟩

/-
  Specification-side definitions used to state the properties: source
  positions, bracket counting, and instrumented step counting.  These are
  measurement functions over the embedded code, not part of the program.
-/

/-- Advance a 1-based (line, column) position over a list of consumed
characters, resetting the column and bumping the line at a newline — the
bookkeeping `compile` performs after each consumed character. -/
def advLineCol : List Char → Nat × Nat → Nat × Nat
  | [], lc => lc
  | c :: cs, lc => advLineCol cs (nextLine c lc.1, nextCol c lc.2)

/-- Number of `[` characters in a source fragment. -/
def cntOpen : List Char → Nat
  | [] => 0
  | c :: cs => (if c = '[' then 1 else 0) + cntOpen cs

/-- Number of `]` characters in a source fragment. -/
def cntClose : List Char → Nat
  | [] => 0
  | c :: cs => (if c = ']' then 1 else 0) + cntClose cs

/-- A source whose `[`/`]` counts are unequal, or wrongly ordered (some
prefix closes more brackets than it has opened). -/
def unbalancedSrc (s : List Char) : Prop :=
  cntOpen s ≠ cntClose s ∨ ∃ n, cntOpen (s.take n) < cntClose (s.take n)

/-- Number of `dbg_interpret` calls the loop of `dbg_next(count)` performs
(the call that reports termination is counted). -/
def execCount (prog : program_t) : Nat → runtime_t → List Nat → Nat
  | 0, _, _ => 0
  | Nat.succ n, rt, inps =>
    let r := dbg_interpret rt (prog.instructions rt.pc) inps
    if r.2.1 ≠ StepOutcome.cont then 1 else 1 + execCount prog n r.1 r.2.2

/-- Number of steps until the virtual machine halts or faults, searched up
to the given fuel: `some j` when the `j`-th `dbg_interpret` call (counted
from 1) reports termination within the fuel, `none` otherwise. -/
def stepsUntilTerm (prog : program_t) : Nat → runtime_t → List Nat → Option Nat
  | 0, _, _ => none
  | Nat.succ n, rt, inps =>
    let r := dbg_interpret rt (prog.instructions rt.pc) inps
    if r.2.1 ≠ StepOutcome.cont then some 1
    else (stepsUntilTerm prog n r.1 r.2.2).map (· + 1)

/-- Unconditionally run `n` interpreter steps (state and remaining input). -/
def iterSteps (prog : program_t) : Nat → runtime_t → List Nat → runtime_t × List Nat
  | 0, rt, inps => (rt, inps)
  | Nat.succ n, rt, inps =>
    let r := dbg_interpret rt (prog.instructions rt.pc) inps
    iterSteps prog n r.1 r.2.2

/-- Runtime states reachable from `dbg_run` through the debugger's step,
jump, continue and inspection operations on a fixed program. -/
inductive Reachable (prog : program_t) : runtime_t → Prop where
  | run (rt : runtime_t) : Reachable prog (dbg_run rt)
  | next (rt : runtime_t) (count : Int) (inps : List Nat) :
      Reachable prog rt → Reachable prog (dbg_next prog count rt inps).1
  | jump (rt : runtime_t) (index : Int) :
      Reachable prog rt → Reachable prog (dbg_jump prog index rt)
  | cont (rt : runtime_t) (fuel : Nat) (inps : List Nat) :
      Reachable prog rt → Reachable prog (cmd_continue prog fuel rt inps).1
  | dataptr (rt : runtime_t) : Reachable prog rt → Reachable prog (dbg_print_dataptr rt)
  | print (rt : runtime_t) (index : Int) :
      Reachable prog rt → Reachable prog (dbg_print index rt)
  | tape (rt : runtime_t) : Reachable prog rt → Reachable prog (dbg_print_tape rt)

/-
  Helper lemmas about the compiler loop.
-/

/-- The wrap-around of the `pc--; pc++` pair on a skipped character is the
identity while `pc` is below the program capacity. -/
lemma pc_skip_eq (pc : Nat) (h : pc < PROGRAM_SIZE) :
    ((pc + (USHORT_MOD - 1)) % USHORT_MOD + 1) % USHORT_MOD = pc := by
  unfold USHORT_MOD
  unfold PROGRAM_SIZE at h
  omega

/-- `pc++` does not wrap while `pc` is below the program capacity. -/
lemma pc_inc_eq (pc : Nat) (h : pc < PROGRAM_SIZE) : (pc + 1) % USHORT_MOD = pc + 1 := by
  unfold USHORT_MOD
  unfold PROGRAM_SIZE at h
  omega

/-- Shape of a successful `compileStep`: the instruction count is
untouched, the position advances by the consumed character, and the stack
and `pc` change according to the character class. -/
lemma compileStep_ok_facts (c : Char) (st st' : CompSt)
    (h : compileStep c st = .ok st') (hpc : st.pc < PROGRAM_SIZE) :
    st'.prog.instr_count = st.prog.instr_count ∧
    st'.line = nextLine c st.line ∧
    st'.col = nextCol c st.col ∧
    ((c = '[' ∧ st'.prog.stack = st.pc :: st.prog.stack ∧ st'.pc = st.pc + 1) ∨
     (c = ']' ∧ (∃ j rest, st.prog.stack = j :: rest ∧ st'.prog.stack = rest) ∧
        st'.pc = st.pc + 1) ∨
     (c ≠ '[' ∧ c ≠ ']' ∧ st'.prog.stack = st.prog.stack ∧
        (st'.pc = st.pc + 1 ∨ st'.pc = st.pc))) := by
  unfold compileStep at h
  simp only at h
  split_ifs at h with h1 h2 h3 h4 h5 h6 h7 h8 h9
  all_goals
    try (cases h;
         exact ⟨rfl, rfl, rfl, by simp_all [pc_inc_eq st.pc hpc, pc_skip_eq st.pc hpc]⟩)
  rcases hstk : st.prog.stack with _ | ⟨j, rest⟩ <;> rw [hstk] at h
  · exact Except.noConfusion h
  · cases h
    refine ⟨rfl, rfl, rfl, ?_⟩
    right; left
    refine ⟨by assumption, ⟨j, rest, rfl, rfl⟩, pc_inc_eq st.pc hpc⟩

/-- Shape of a failing `compileStep`: only a `[` at full stack or a `]` at
empty stack fails, the error is reported at the current position, and the
instruction count and stack of the partially mutated program are those of
the input. -/
lemma compileStep_err_facts (c : Char) (st : CompSt) (p : program_t) (e : CompileError)
    (h : compileStep c st = .error (p, e)) :
    p.instr_count = st.prog.instr_count ∧ p.stack = st.prog.stack ∧
    ((c = '[' ∧ st.prog.stack.length = STACK_SIZE ∧
        e = ⟨.loopNestingOverflow, some (st.line, st.col)⟩) ∨
     (c = ']' ∧ st.prog.stack = [] ∧
        e = ⟨.unmatchedCloseBracket, some (st.line, st.col)⟩)) := by
  unfold compileStep at h
  simp only at h
  split_ifs at h with h1 h2 h3 h4 h5 h6 h7 h8 h9
  · -- c = '[' at full stack
    cases h
    exact ⟨rfl, rfl, Or.inl ⟨h7, h8, rfl⟩⟩
  · -- c = ']'
    rcases hstk : st.prog.stack with _ | ⟨j, rest⟩ <;> rw [hstk] at h
    · cases h
      exact ⟨rfl, hstk.symm ▸ rfl, Or.inr ⟨by assumption, rfl, rfl⟩⟩
    · exact Except.noConfusion h

/-- The scanning loop never changes the instruction count. -/
lemma compileLoop_instr_count : ∀ (cs : List Char) (st : CompSt),
    (compileLoop cs st).1.prog.instr_count = st.prog.instr_count := by
  intro cs
  induction cs with
  | nil => intro st; simp [compileLoop]
  | cons c cs ih =>
    intro st
    by_cases hlt : st.pc < PROGRAM_SIZE
    · rcases hstep : compileStep c st with ⟨p, e⟩ | st'
      · have hred : compileLoop (c :: cs) st = (⟨p, st.pc, st.line, st.col⟩, some e) := by
          simp [compileLoop, hlt, hstep]
        rw [hred]
        exact (compileStep_err_facts c st p e hstep).1
      · have hred : compileLoop (c :: cs) st = compileLoop cs st' := by
          simp [compileLoop, hlt, hstep]
        rw [hred, ih st']
        exact (compileStep_ok_facts c st st' hstep hlt).1
    · simp [compileLoop, hlt]

/-- A run of the scanning loop that neither fails nor fills the program
keeps the bracket balance: the final stack length plus the closing
brackets equals the initial stack length plus the opening brackets, and
no prefix of the input closes more brackets than the initial stack plus
its own opening brackets can absorb. -/
lemma compileLoop_ok_stack : ∀ (cs : List Char) (st : CompSt),
    st.pc ≤ PROGRAM_SIZE →
    (compileLoop cs st).2 = none →
    (compileLoop cs st).1.pc ≠ PROGRAM_SIZE →
    (compileLoop cs st).1.prog.stack.length + cntClose cs =
      st.prog.stack.length + cntOpen cs ∧
    (∀ n, cntClose (cs.take n) ≤ st.prog.stack.length + cntOpen (cs.take n)) := by
  intro cs
  induction cs with
  | nil =>
    intro st _ _ _
    refine ⟨by simp [compileLoop, cntOpen, cntClose], ?_⟩
    intro n
    simp [cntClose]
  | cons c cs ih =>
    intro st hpc hok hfull
    by_cases hlt : st.pc < PROGRAM_SIZE
    · rcases hstep : compileStep c st with ⟨p, e⟩ | st'
      · have hred : compileLoop (c :: cs) st = (⟨p, st.pc, st.line, st.col⟩, some e) := by
          simp [compileLoop, hlt, hstep]
        rw [hred] at hok
        exact absurd hok (by simp)
      · have hred : compileLoop (c :: cs) st = compileLoop cs st' := by
          simp [compileLoop, hlt, hstep]
        rw [hred] at hok hfull
        obtain ⟨-, -, -, hshape⟩ := compileStep_ok_facts c st st' hstep hlt
        have hpc' : st'.pc ≤ PROGRAM_SIZE := by
          rcases hshape with ⟨-, -, h⟩ | ⟨-, -, h⟩ | ⟨-, -, -, h | h⟩ <;> omega
        obtain ⟨ihsum, ihpre⟩ := ih st' hpc' hok hfull
        rw [hred]
        rcases hshape with ⟨hc, hstk, -⟩ | ⟨hc, ⟨j, rest, hstk, hstk'⟩, -⟩ | ⟨hc1, hc2, hstk, -⟩
        · subst c
          rw [hstk] at ihsum ihpre
          simp only [List.length_cons] at ihsum ihpre
          constructor
          · simp [cntOpen, cntClose]
            omega
          · intro n
            cases n with
            | zero => simp [cntClose]
            | succ m =>
              have hm := ihpre m
              simp [List.take_succ_cons, cntOpen, cntClose]
              omega
        · subst c
          rw [hstk'] at ihsum ihpre
          rw [hstk]
          simp only [List.length_cons]
          constructor
          · simp [cntOpen, cntClose]
            omega
          · intro n
            cases n with
            | zero => simp [cntClose]
            | succ m =>
              have hm := ihpre m
              simp [List.take_succ_cons, cntOpen, cntClose]
              omega
        · rw [hstk] at ihsum ihpre
          constructor
          · simp [cntOpen, cntClose, hc1, hc2]
            omega
          · intro n
            cases n with
            | zero => simp [cntClose]
            | succ m =>
              have hm := ihpre m
              simp [List.take_succ_cons, cntOpen, cntClose, hc1, hc2]
              omega
    · have hred : compileLoop (c :: cs) st = (st, none) := by simp [compileLoop, hlt]
      rw [hred] at hfull
      exact absurd (by omega : st.pc = PROGRAM_SIZE) hfull

/-- Case dissection of `compile`: a failure inside the loop, a program
that filled the instruction array, a leftover bracket stack, or success
with the `OP_END` terminator and the instruction count written. -/
lemma compile_dissect (s : List Char) (prog : program_t) :
    (∃ stL e, compileLoop s ⟨prog, 0, 1, 1⟩ = (stL, some e) ∧
       compile s prog = ⟨stL.prog, some e⟩) ∨
    (∃ stL, compileLoop s ⟨prog, 0, 1, 1⟩ = (stL, none) ∧ stL.pc = PROGRAM_SIZE ∧
       compile s prog = ⟨stL.prog, some ⟨.programTooLarge, some (stL.line, stL.col)⟩⟩) ∨
    (∃ stL, compileLoop s ⟨prog, 0, 1, 1⟩ = (stL, none) ∧ stL.pc ≠ PROGRAM_SIZE ∧
       stL.prog.stack.length ≠ 0 ∧
       compile s prog = ⟨stL.prog, some ⟨.unmatchedOpenBracket, none⟩⟩) ∨
    (∃ stL, compileLoop s ⟨prog, 0, 1, 1⟩ = (stL, none) ∧ stL.pc ≠ PROGRAM_SIZE ∧
       stL.prog.stack.length = 0 ∧
       compile s prog = ⟨{ stL.prog with
           instructions := writeOperator stL.prog.instructions stL.pc OP_END,
           instr_count := stL.pc + 1 }, none⟩) := by
  rcases hr : compileLoop s ⟨prog, 0, 1, 1⟩ with ⟨stL, errL⟩
  cases errL with
  | some e =>
    exact Or.inl ⟨stL, e, rfl, by simp [compile, hr]⟩
  | none =>
    by_cases h1 : stL.pc = PROGRAM_SIZE
    · exact Or.inr (Or.inl ⟨stL, rfl, h1, by simp [compile, hr, h1]⟩)
    · by_cases h2 : stL.prog.stack.length = 0
      · exact Or.inr (Or.inr (Or.inr ⟨stL, rfl, h1, h2, by simp [compile, hr, h1, h2]⟩))
      · exact Or.inr (Or.inr (Or.inl ⟨stL, rfl, h1, h2, by simp [compile, hr, h1, h2]⟩))

/-- A failure raised inside the scanning loop is an unmatched `]` or a
loop nesting overflow; an unmatched-close failure means some prefix of
the input closes more brackets than the initial stack and its own opening
brackets can absorb; and the failure is reported at the position of the
offending character, obtained by advancing the initial position over the
consumed characters. -/
lemma compileLoop_err_facts : ∀ (cs : List Char) (st : CompSt) (e : CompileError),
    (compileLoop cs st).2 = some e →
    (e.kind = .unmatchedCloseBracket ∨ e.kind = .loopNestingOverflow) ∧
    (e.kind = .unmatchedCloseBracket →
      ∃ n, st.prog.stack.length + cntOpen (cs.take n) < cntClose (cs.take n)) ∧
    (∃ n, n < cs.length ∧
      e.reported = some (advLineCol (cs.take n) (st.line, st.col)) ∧
      (e.kind = .unmatchedCloseBracket → cs.getD n ' ' = ']') ∧
      (e.kind = .loopNestingOverflow → cs.getD n ' ' = '[')) := by
  intro cs
  induction cs with
  | nil =>
    intro st e he
    exact absurd he (by simp [compileLoop])
  | cons c cs ih =>
    intro st e he
    by_cases hlt : st.pc < PROGRAM_SIZE
    · rcases hstep : compileStep c st with ⟨p, e0⟩ | st'
      · have hred : compileLoop (c :: cs) st = (⟨p, st.pc, st.line, st.col⟩, some e0) := by
          simp [compileLoop, hlt, hstep]
        rw [hred] at he
        have he0 : e0 = e := by simpa using he
        subst e0
        obtain ⟨-, -, hcase⟩ := compileStep_err_facts c st p e hstep
        rcases hcase with ⟨hc, -, hket⟩ | ⟨hc, hstk, hket⟩
        · subst c; subst e
          refine ⟨Or.inr rfl, by simp, 0, by simp, by simp [advLineCol], by simp, by simp⟩
        · subst c; subst e
          refine ⟨Or.inl rfl, ?_, 0, by simp, by simp [advLineCol], by simp, by simp⟩
          intro _
          refine ⟨1, ?_⟩
          rw [hstk]
          simp [List.take_succ_cons, cntOpen, cntClose]
      · have hred : compileLoop (c :: cs) st = compileLoop cs st' := by
          simp [compileLoop, hlt, hstep]
        rw [hred] at he
        obtain ⟨-, hline, hcol, hshape⟩ := compileStep_ok_facts c st st' hstep hlt
        obtain ⟨ihkind, ihclose, n, hlen, hrep, hcl, hop⟩ := ih st' e he
        refine ⟨ihkind, ?_, n + 1, by simpa using hlen, ?_, ?_, ?_⟩
        · intro hk
          obtain ⟨m, hm⟩ := ihclose hk
          rcases hshape with ⟨hc, hstk, -⟩ | ⟨hc, ⟨j, rest, hstk, hstk'⟩, -⟩ | ⟨hc1, hc2, hstk, -⟩
          · subst c
            rw [hstk] at hm
            refine ⟨m + 1, ?_⟩
            simp only [List.length_cons] at hm
            simp [List.take_succ_cons, cntOpen, cntClose]
            omega
          · subst c
            rw [hstk'] at hm
            refine ⟨m + 1, ?_⟩
            rw [hstk]
            simp only [List.length_cons]
            simp [List.take_succ_cons, cntOpen, cntClose]
            omega
          · rw [hstk] at hm
            refine ⟨m + 1, ?_⟩
            simp [List.take_succ_cons, cntOpen, cntClose, hc1, hc2]
            omega
        · rw [List.take_succ_cons]
          rw [hline, hcol] at hrep
          simpa [advLineCol] using hrep
        · simpa using hcl
        · simpa using hop
    · have hred : compileLoop (c :: cs) st = (st, none) := by simp [compileLoop, hlt]
      rw [hred] at he
      exact absurd he (by simp)

/-- The scanning loop preserves the instruction count, stated for a loop
run named by an equation. -/
lemma compileLoop_instr_count_eq {cs : List Char} {st stL : CompSt} {err : Option CompileError}
    (hr : compileLoop cs st = (stL, err)) :
    stL.prog.instr_count = st.prog.instr_count := by
  have h := compileLoop_instr_count cs st
  rw [hr] at h
  exact h

/-- C2 (amended).  A source with unequal or wrongly ordered bracket counts
never compiles when compilation starts with an empty bracket stack: an
error is produced, the load leaves the session not-loaded and
not-running, and the instruction count is untouched.  When the produced
kind is `UnmatchedCloseBracket` some prefix has more `]` than `[`; when
it is `UnmatchedOpenBracket` the whole source has more `[` than `]` (a
capacity failure may pre-empt both kinds). -/
theorem unbalanced_source_rejected :
    ∀ (s : List Char) (st : DbgState),
      st.program.stack = [] →
      unbalancedSrc s →
      (∃ e, (compile s st.program).err = some e ∧
        (e.kind = CompileErrKind.unmatchedCloseBracket →
          ∃ n, cntOpen (s.take n) < cntClose (s.take n)) ∧
        (e.kind = CompileErrKind.unmatchedOpenBracket → cntClose s < cntOpen s)) ∧
      (dbg_load (some s) st).loaded = false ∧
      (dbg_load (some s) st).runtime.running = false ∧
      (dbg_load (some s) st).program.instr_count = st.program.instr_count := by
  intro s st hstk hunb
  rcases compile_dissect s st.program with ⟨stL, e, hr, hco⟩ | ⟨stL, hr, hpc, hco⟩ |
    ⟨stL, hr, hpc, hlen, hco⟩ | ⟨stL, hr, hpc, hlen, hco⟩
  · obtain ⟨hkinds, hclose, -⟩ :=
      compileLoop_err_facts s ⟨st.program, 0, 1, 1⟩ e (by rw [hr])
    refine ⟨⟨e, by rw [hco], ?_, ?_⟩, ?_, ?_, ?_⟩
    · intro hk
      obtain ⟨n, hn⟩ := hclose hk
      exact ⟨n, by simpa [hstk] using hn⟩
    · intro hk
      rcases hkinds with h1 | h1 <;> rw [hk] at h1 <;> exact absurd h1 (by decide)
    · simp [dbg_load, hco]
    · simp [dbg_load]
    · simp [dbg_load, hco, compileLoop_instr_count_eq hr]
  · refine ⟨⟨⟨.programTooLarge, some (stL.line, stL.col)⟩, by rw [hco], ?_, ?_⟩, ?_, ?_, ?_⟩
    · intro hk; simp at hk
    · intro hk; simp at hk
    · simp [dbg_load, hco]
    · simp [dbg_load]
    · simp [dbg_load, hco, compileLoop_instr_count_eq hr]
  · obtain ⟨hsum, -⟩ :=
      compileLoop_ok_stack s ⟨st.program, 0, 1, 1⟩ (by simp [PROGRAM_SIZE])
        (by rw [hr]) (by rw [hr]; exact hpc)
    rw [hr] at hsum
    refine ⟨⟨⟨.unmatchedOpenBracket, none⟩, by rw [hco], ?_, ?_⟩, ?_, ?_, ?_⟩
    · intro hk; simp at hk
    · intro hk
      simp [hstk] at hsum
      omega
    · simp [dbg_load, hco]
    · simp [dbg_load]
    · simp [dbg_load, hco, compileLoop_instr_count_eq hr]
  · exfalso
    obtain ⟨hsum, hpre⟩ :=
      compileLoop_ok_stack s ⟨st.program, 0, 1, 1⟩ (by simp [PROGRAM_SIZE])
        (by rw [hr]) (by rw [hr]; exact hpc)
    rw [hr] at hsum
    simp [hstk, hlen] at hsum
    simp [hstk] at hpre
    rcases hunb with h | ⟨n, hn⟩
    · omega
    · have := hpre n
      omega

/-- C2 witness: the one-character source `]` is unbalanced, and loading it
into a fresh session leaves the session not-loaded. -/
theorem unbalanced_source_rejected_witness :
    (dbg_load (some [']']) initDbg).loaded = false :=
  (unbalanced_source_rejected [']'] initDbg rfl (Or.inl (by decide))).2.1

/-- C2 counterexample to the claim as stated: 513 consecutive `[` have
unequal bracket counts, yet compilation fails with `LoopNestingOverflow`
rather than either unmatched-bracket kind.  Moreover the bracket stack
leaks across compilations: after a failed load of `[`, the wrongly
ordered source `]` compiles successfully. -/
theorem deep_nesting_fails_with_capacity_kind :
    (unbalancedSrc (List.replicate 513 '[') ∧
      (compile (List.replicate 513 '[') initProgram).err =
        some ⟨CompileErrKind.loopNestingOverflow, some (1, 513)⟩ ∧
      CompileErrKind.loopNestingOverflow ≠ CompileErrKind.unmatchedOpenBracket ∧
      CompileErrKind.loopNestingOverflow ≠ CompileErrKind.unmatchedCloseBracket) ∧
    (unbalancedSrc [']'] ∧
      (compile [']'] (compile ['['] initProgram).prog).err = none) :=
  ⟨⟨Or.inl (by decide), by decide, by decide, by decide⟩,
   ⟨Or.inl (by decide), by decide⟩⟩

/-- C1 evidence: the `]` handler of `compile` stores the close-bracket
index into the matching open bracket's operator field (clobbering
`OP_JMP`) instead of its operand field, so for the source `[]` slot 0
ends up with operator 1 (`OP_INC`) and an unset operand: the claimed
`JumpIfZero`/`JumpIfNonZero` bidirectional pairing never exists. -/
theorem compile_clobbers_open_bracket_slot :
    (compile ['[', ']'] initProgram).err = none ∧
    (compile ['[', ']'] initProgram).prog.instr_count = 3 ∧
    (compile ['[', ']'] initProgram).prog.instructions 1 = ⟨OP_RET, 0⟩ ∧
    (compile ['[', ']'] initProgram).prog.instructions 0 = ⟨OP_INC, 0⟩ ∧
    ((compile ['[', ']'] initProgram).prog.instructions 0).operator ≠ OP_JMP := by
  refine ⟨by decide, by decide, by decide, by decide, by decide⟩

/-- The position the scanning loop ends at is obtained by advancing the
starting position over some prefix of the input (the consumed
characters). -/
lemma compileLoop_pos : ∀ (cs : List Char) (st : CompSt),
    ∃ n, n ≤ cs.length ∧
      ((compileLoop cs st).1.line, (compileLoop cs st).1.col) =
        advLineCol (cs.take n) (st.line, st.col) := by
  intro cs
  induction cs with
  | nil => intro st; exact ⟨0, by simp, by simp [compileLoop, advLineCol]⟩
  | cons c cs ih =>
    intro st
    by_cases hlt : st.pc < PROGRAM_SIZE
    · rcases hstep : compileStep c st with ⟨p, e⟩ | st'
      · refine ⟨0, by simp, ?_⟩
        simp [compileLoop, hlt, hstep, advLineCol]
      · have hred : compileLoop (c :: cs) st = compileLoop cs st' := by
          simp [compileLoop, hlt, hstep]
        obtain ⟨-, hline, hcol, -⟩ := compileStep_ok_facts c st st' hstep hlt
        obtain ⟨n, hn, hpos⟩ := ih st'
        refine ⟨n + 1, by simpa using hn, ?_⟩
        rw [hred, List.take_succ_cons]
        rw [hpos, hline, hcol]
        simp [advLineCol]
    · refine ⟨0, by simp, ?_⟩
      simp [compileLoop, hlt, advLineCol]

/-- C9 (amended).  A compile failure raised at an offending bracket
(`LoopNestingOverflow` at a `[`, `UnmatchedCloseBracket` at a `]`) is
reported with the 1-based line/column of that character, obtained by
advancing the position (1, 1) over the consumed characters with the
newline rule; a `ProgramTooLarge` failure is reported at the position
reached after the consumed prefix; an `UnmatchedOpenBracket` failure
carries no reported position at all. -/
theorem compile_error_positions :
    ∀ (s : List Char) (prog : program_t) (e : CompileError),
      (compile s prog).err = some e →
      ((e.kind = CompileErrKind.unmatchedCloseBracket ∨
        e.kind = CompileErrKind.loopNestingOverflow) →
        ∃ n, n < s.length ∧
          e.reported = some (advLineCol (s.take n) (1, 1)) ∧
          (e.kind = CompileErrKind.unmatchedCloseBracket → s.getD n ' ' = ']') ∧
          (e.kind = CompileErrKind.loopNestingOverflow → s.getD n ' ' = '[')) ∧
      (e.kind = CompileErrKind.programTooLarge →
        ∃ n, n ≤ s.length ∧ e.reported = some (advLineCol (s.take n) (1, 1))) ∧
      (e.kind = CompileErrKind.unmatchedOpenBracket → e.reported = none) := by
  intro s prog e he
  rcases compile_dissect s prog with ⟨stL, e0, hr, hco⟩ | ⟨stL, hr, hpc, hco⟩ |
    ⟨stL, hr, hpc, hlen, hco⟩ | ⟨stL, hr, hpc, hlen, hco⟩
  · rw [hco] at he
    have he0 : e0 = e := by simpa using he
    subst e0
    obtain ⟨hkinds, -, hpos⟩ :=
      compileLoop_err_facts s ⟨prog, 0, 1, 1⟩ e (by rw [hr])
    refine ⟨fun _ => hpos, ?_, ?_⟩
    · intro hk
      rcases hkinds with h1 | h1 <;> rw [hk] at h1 <;> exact absurd h1 (by decide)
    · intro hk
      rcases hkinds with h1 | h1 <;> rw [hk] at h1 <;> exact absurd h1 (by decide)
  · rw [hco] at he
    have he0 : (⟨.programTooLarge, some (stL.line, stL.col)⟩ : CompileError) = e := by
      simpa using he
    subst he0
    refine ⟨?_, ?_, ?_⟩
    · intro hk; rcases hk with hk | hk <;> simp at hk
    · intro _
      obtain ⟨n, hn, hpos⟩ := compileLoop_pos s ⟨prog, 0, 1, 1⟩
      rw [hr] at hpos
      simp only at hpos
      refine ⟨n, hn, ?_⟩
      simp only [CompileError.reported]
      rw [show (stL.line, stL.col) = advLineCol (s.take n) (1, 1) from hpos]
    · intro hk; simp at hk
  · rw [hco] at he
    have he0 : (⟨.unmatchedOpenBracket, none⟩ : CompileError) = e := by simpa using he
    subst he0
    refine ⟨?_, ?_, fun _ => rfl⟩
    · intro hk; rcases hk with hk | hk <;> simp at hk
    · intro hk; simp at hk
  · rw [hco] at he
    simp at he

/-- C9 witness: compiling the source `]` fails with an unmatched `]`
reported at line 1, column 1, which is where the offending character
sits. -/
theorem compile_error_positions_witness :
    ∃ n, n < ([']'] : List Char).length ∧
      (⟨CompileErrKind.unmatchedCloseBracket, some (1, 1)⟩ : CompileError).reported =
        some (advLineCol (([']'] : List Char).take n) (1, 1)) ∧
      ((⟨CompileErrKind.unmatchedCloseBracket, some (1, 1)⟩ : CompileError).kind =
          CompileErrKind.unmatchedCloseBracket → ([']'] : List Char).getD n ' ' = ']') ∧
      ((⟨CompileErrKind.unmatchedCloseBracket, some (1, 1)⟩ : CompileError).kind =
          CompileErrKind.loopNestingOverflow → ([']'] : List Char).getD n ' ' = '[') :=
  (compile_error_positions [']'] initProgram
    ⟨CompileErrKind.unmatchedCloseBracket, some (1, 1)⟩ (by decide)).1 (Or.inl rfl)

/-- C9 counterexample to the claim as stated: compiling `[` fails with
`UnmatchedOpenBracket` but carries no reported position, in particular
not line 1, column 1. -/
theorem unmatched_open_reported_without_position :
    (compile ['['] initProgram).err = some ⟨CompileErrKind.unmatchedOpenBracket, none⟩ ∧
    (compile ['['] initProgram).err ≠
      some ⟨CompileErrKind.unmatchedOpenBracket, some (1, 1)⟩ := by
  refine ⟨by decide, by decide⟩

/-- C4 (amended).  A failed load always stops the running session.  When
the file cannot be opened only `running` changes (`loaded` and the whole
program keep their prior values, so the controller is NOT marked
not-loaded in this case).  When compilation fails the controller is
marked not-loaded, and the instruction count and the runtime's tape and
registers are untouched (the program's instruction slots and bracket
stack, however, may have been mutated by the partial compilation). -/
theorem failed_load_effects :
    ∀ (st : DbgState),
      (dbg_load none st = { st with runtime := { st.runtime with running := false } }) ∧
      (∀ (cs : List Char) (e : CompileError),
        (compile cs st.program).err = some e →
        (dbg_load (some cs) st).loaded = false ∧
        (dbg_load (some cs) st).runtime.running = false ∧
        (dbg_load (some cs) st).runtime.data = st.runtime.data ∧
        (dbg_load (some cs) st).runtime.pc = st.runtime.pc ∧
        (dbg_load (some cs) st).runtime.ptr = st.runtime.ptr ∧
        (dbg_load (some cs) st).program.instr_count = st.program.instr_count) := by
  intro st
  refine ⟨rfl, ?_⟩
  intro cs e he
  rcases compile_dissect cs st.program with ⟨stL, e0, hr, hco⟩ | ⟨stL, hr, hpc, hco⟩ |
    ⟨stL, hr, hpc, hlen, hco⟩ | ⟨stL, hr, hpc, hlen, hco⟩
  · exact ⟨by simp [dbg_load, hco], rfl, rfl, rfl, rfl,
      by simp [dbg_load, hco, compileLoop_instr_count_eq hr]⟩
  · exact ⟨by simp [dbg_load, hco], rfl, rfl, rfl, rfl,
      by simp [dbg_load, hco, compileLoop_instr_count_eq hr]⟩
  · exact ⟨by simp [dbg_load, hco], rfl, rfl, rfl, rfl,
      by simp [dbg_load, hco, compileLoop_instr_count_eq hr]⟩
  · rw [hco] at he
    simp at he

/-- C4 witness: loading the uncompilable source `]` over a session that
holds a loaded program leaves the session not-loaded with the runtime
untouched apart from `running`. -/
theorem failed_load_effects_witness :
    (dbg_load (some [']']) ⟨initProgram, true, initRuntime⟩).loaded = false :=
  ((failed_load_effects ⟨initProgram, true, initRuntime⟩).2 [']']
    ⟨CompileErrKind.unmatchedCloseBracket, some (1, 1)⟩ (by decide)).1

/-- C4 counterexample to the claim as stated: when the file cannot be
opened, the controller is NOT marked not-loaded — a previously loaded
session stays `loaded = true`.  And a failing compilation does not leave
the prior Program untouched: loading the uncompilable `.[` over a session
holding the compiled `++[]` overwrites slot 0's operator. -/
theorem load_open_failure_keeps_loaded :
    (dbg_load none ⟨initProgram, true, initRuntime⟩).loaded = true ∧
    ((dbg_load (some ['+', '+', '[', ']']) initDbg).program.instructions 0).operator =
      OP_ADD ∧
    (dbg_load (some ['.', '[']) (dbg_load (some ['+', '+', '[', ']']) initDbg)).loaded =
      false ∧
    ((dbg_load (some ['.', '['])
      (dbg_load (some ['+', '+', '[', ']']) initDbg)).program.instructions 0).operator =
      OP_OUT := by
  refine ⟨rfl, by decide, by decide, by decide⟩

/-- Complete case analysis of one `dbg_interpret` call: the instruction
class determines the resulting runtime, outcome and input stream. -/
lemma dbg_interpret_cases (rt : runtime_t) (ins : instruction_t) (inps : List Nat) :
    (ins.operator = OP_END ∧
      dbg_interpret rt ins inps = ({ rt with running := false }, .halted, inps)) ∨
    (ins.operator = OP_INC ∧ rt.ptr + 1 < DATA_SIZE ∧
      dbg_interpret rt ins inps =
        ({ rt with ptr := rt.ptr + 1, pc := (rt.pc + 1) % USHORT_MOD }, .cont, inps)) ∨
    (ins.operator = OP_INC ∧ ¬ rt.ptr + 1 < DATA_SIZE ∧
      dbg_interpret rt ins inps =
        ({ rt with running := false }, .fault .pointerOverflow, inps)) ∨
    (ins.operator = OP_DEC ∧ 0 < rt.ptr ∧
      dbg_interpret rt ins inps =
        ({ rt with ptr := rt.ptr - 1, pc := (rt.pc + 1) % USHORT_MOD }, .cont, inps)) ∨
    (ins.operator = OP_DEC ∧ ¬ 0 < rt.ptr ∧
      dbg_interpret rt ins inps =
        ({ rt with running := false }, .fault .pointerUnderflow, inps)) ∨
    (ins.operator = OP_ADD ∧
      dbg_interpret rt ins inps =
        ({ rt with data := writeCell rt.data rt.ptr (rt.data rt.ptr + 1),
                   pc := (rt.pc + 1) % USHORT_MOD }, .cont, inps)) ∨
    (ins.operator = OP_SUB ∧
      dbg_interpret rt ins inps =
        ({ rt with data := writeCell rt.data rt.ptr (rt.data rt.ptr + (USHORT_MOD - 1)),
                   pc := (rt.pc + 1) % USHORT_MOD }, .cont, inps)) ∨
    (ins.operator = OP_OUT ∧
      dbg_interpret rt ins inps = ({ rt with pc := (rt.pc + 1) % USHORT_MOD }, .cont, inps)) ∨
    (ins.operator = OP_IN ∧
      dbg_interpret rt ins inps =
        ({ rt with data := writeCell rt.data rt.ptr (inps.headD (USHORT_MOD - 1)),
                   pc := (rt.pc + 1) % USHORT_MOD }, .cont, inps.tail)) ∨
    (ins.operator = OP_JMP ∧ rt.data rt.ptr = 0 ∧
      dbg_interpret rt ins inps =
        ({ rt with pc := (ins.operand + 1) % USHORT_MOD }, .cont, inps)) ∨
    (ins.operator = OP_JMP ∧ rt.data rt.ptr ≠ 0 ∧
      dbg_interpret rt ins inps = ({ rt with pc := (rt.pc + 1) % USHORT_MOD }, .cont, inps)) ∨
    (ins.operator = OP_RET ∧ rt.data rt.ptr ≠ 0 ∧
      dbg_interpret rt ins inps =
        ({ rt with pc := (ins.operand + 1) % USHORT_MOD }, .cont, inps)) ∨
    (ins.operator = OP_RET ∧ rt.data rt.ptr = 0 ∧
      dbg_interpret rt ins inps = ({ rt with pc := (rt.pc + 1) % USHORT_MOD }, .cont, inps)) ∨
    (ins.operator ≠ OP_END ∧ ins.operator ≠ OP_INC ∧ ins.operator ≠ OP_DEC ∧
      ins.operator ≠ OP_ADD ∧ ins.operator ≠ OP_SUB ∧ ins.operator ≠ OP_OUT ∧
      ins.operator ≠ OP_IN ∧ ins.operator ≠ OP_JMP ∧ ins.operator ≠ OP_RET ∧
      dbg_interpret rt ins inps = ({ rt with pc := (rt.pc + 1) % USHORT_MOD }, .cont, inps)) := by
  unfold dbg_interpret
  split_ifs with h1 h2 h3 h4 h5 h6 h7 h8 h9 h10 h11 h12 h13
  all_goals simp_all

/-- C5 (amended).  On a fault the virtual machine does not advance the
program counter, leaves the tape and data pointer untouched, and marks
the session not-running; while not-running, `next` and `continue`
commands are rejected with no state change.  A non-faulting, non-halting
step advances the program counter by exactly one for every instruction
that does not take a jump; a taken `JumpIfZero`/`JumpIfNonZero`
continues at `operand + 1` instead. -/
theorem step_pc_and_fault_frame :
    ∀ (rt : runtime_t) (ins : instruction_t) (inps : List Nat) (prog : program_t)
      (count : Option Int) (fuel : Nat),
      (∀ k, (dbg_interpret rt ins inps).2.1 = StepOutcome.fault k →
        (dbg_interpret rt ins inps).1.pc = rt.pc ∧
        (dbg_interpret rt ins inps).1.ptr = rt.ptr ∧
        (dbg_interpret rt ins inps).1.data = rt.data ∧
        (dbg_interpret rt ins inps).1.running = false) ∧
      ((dbg_interpret rt ins inps).2.1 = StepOutcome.cont →
        rt.pc + 1 < USHORT_MOD →
        ins.operand + 1 < USHORT_MOD →
        ((¬ (ins.operator = OP_JMP ∧ rt.data rt.ptr = 0) →
          ¬ (ins.operator = OP_RET ∧ rt.data rt.ptr ≠ 0) →
            (dbg_interpret rt ins inps).1.pc = rt.pc + 1) ∧
         ((ins.operator = OP_JMP ∧ rt.data rt.ptr = 0) ∨
          (ins.operator = OP_RET ∧ rt.data rt.ptr ≠ 0) →
            (dbg_interpret rt ins inps).1.pc = ins.operand + 1))) ∧
      (rt.running = false →
        cmd_next prog count rt inps = (rt, inps) ∧
        cmd_continue prog fuel rt inps = (rt, inps)) := by
  intro rt ins inps prog count fuel
  refine ⟨?_, ?_, ?_⟩
  · intro k hk
    rcases dbg_interpret_cases rt ins inps with ⟨h0, heq⟩ | ⟨h0, hcond, heq⟩ |
      ⟨h0, hcond, heq⟩ | ⟨h0, hcond, heq⟩ | ⟨h0, hcond, heq⟩ | ⟨h0, heq⟩ | ⟨h0, heq⟩ |
      ⟨h0, heq⟩ | ⟨h0, heq⟩ | ⟨h0, hcond, heq⟩ | ⟨h0, hcond, heq⟩ | ⟨h0, hcond, heq⟩ |
      ⟨h0, hcond, heq⟩ | ⟨h0, h1, h2, h3, h4, h5, h6, h7, h8, heq⟩ <;>
      rw [heq] at hk ⊢ <;> simp_all
  · intro hc hpc hoperand
    rcases dbg_interpret_cases rt ins inps with ⟨h0, heq⟩ | ⟨h0, hcond, heq⟩ |
      ⟨h0, hcond, heq⟩ | ⟨h0, hcond, heq⟩ | ⟨h0, hcond, heq⟩ | ⟨h0, heq⟩ | ⟨h0, heq⟩ |
      ⟨h0, heq⟩ | ⟨h0, heq⟩ | ⟨h0, hcond, heq⟩ | ⟨h0, hcond, heq⟩ | ⟨h0, hcond, heq⟩ |
      ⟨h0, hcond, heq⟩ | ⟨h0, h1, h2, h3, h4, h5, h6, h7, h8, heq⟩ <;>
      rw [heq] at hc ⊢ <;>
      simp_all [OP_END, OP_INC, OP_DEC, OP_ADD, OP_SUB, OP_OUT, OP_IN, OP_JMP, OP_RET,
        USHORT_MOD] <;>
      omega
  · intro hrun
    exact ⟨by simp [cmd_next, hrun], by simp [cmd_continue, hrun]⟩

/-- C5 witness: a faulting `<` at data pointer 0 leaves the program
counter on the faulting instruction and stops the runtime. -/
theorem step_pc_and_fault_frame_witness :
    (dbg_interpret ⟨true, fun _ => 0, 4, 0⟩ ⟨OP_DEC, 0⟩ []).1.pc = 4 ∧
    (dbg_interpret ⟨true, fun _ => 0, 4, 0⟩ ⟨OP_DEC, 0⟩ []).1.running = false :=
  have h := (step_pc_and_fault_frame ⟨true, fun _ => 0, 4, 0⟩ ⟨OP_DEC, 0⟩ [] initProgram
    none 0).1 FaultKind.pointerUnderflow (by decide)
  ⟨h.1, h.2.2.2⟩

/-- C5 counterexample to the claim as stated: a taken `JumpIfZero` with
operand 5 moves the program counter from 0 to 6, not by exactly one. -/
theorem taken_jump_pc_not_plus_one :
    (dbg_interpret ⟨true, fun _ => 0, 0, 0⟩ ⟨OP_JMP, 5⟩ []).2.1 = StepOutcome.cont ∧
    (dbg_interpret ⟨true, fun _ => 0, 0, 0⟩ ⟨OP_JMP, 5⟩ []).1.pc = 6 ∧
    (6 : Nat) ≠ 0 + 1 := by
  refine ⟨by decide, by decide, by decide⟩

/-- C6.  In a state respecting the tape bound, `<` faults with a pointer
underflow exactly when the data pointer is 0 (at 1 it succeeds and
yields 0), and `>` faults with a pointer overflow exactly when the data
pointer is `DATA_SIZE - 1` (below that it succeeds and increments). -/
theorem pointer_bounds_exact :
    ∀ (rt : runtime_t) (x : Nat) (inps : List Nat),
      rt.ptr < DATA_SIZE →
      (((dbg_interpret rt ⟨OP_DEC, x⟩ inps).2.1 =
          StepOutcome.fault FaultKind.pointerUnderflow) ↔ rt.ptr = 0) ∧
      (rt.ptr = 1 →
        (dbg_interpret rt ⟨OP_DEC, x⟩ inps).2.1 = StepOutcome.cont ∧
        (dbg_interpret rt ⟨OP_DEC, x⟩ inps).1.ptr = 0) ∧
      (((dbg_interpret rt ⟨OP_INC, x⟩ inps).2.1 =
          StepOutcome.fault FaultKind.pointerOverflow) ↔ rt.ptr = DATA_SIZE - 1) ∧
      (rt.ptr < DATA_SIZE - 1 →
        (dbg_interpret rt ⟨OP_INC, x⟩ inps).2.1 = StepOutcome.cont ∧
        (dbg_interpret rt ⟨OP_INC, x⟩ inps).1.ptr = rt.ptr + 1) := by
  intro rt x inps hlt
  have hdec := dbg_interpret_cases rt ⟨OP_DEC, x⟩ inps
  have hinc := dbg_interpret_cases rt ⟨OP_INC, x⟩ inps
  refine ⟨?_, ?_, ?_, ?_⟩
  · rcases hdec with ⟨h0, heq⟩ | ⟨h0, hcond, heq⟩ | ⟨h0, hcond, heq⟩ | ⟨h0, hcond, heq⟩ |
      ⟨h0, hcond, heq⟩ | ⟨h0, heq⟩ | ⟨h0, heq⟩ | ⟨h0, heq⟩ | ⟨h0, heq⟩ | ⟨h0, hcond, heq⟩ |
      ⟨h0, hcond, heq⟩ | ⟨h0, hcond, heq⟩ | ⟨h0, hcond, heq⟩ |
      ⟨h0, h1, h2, h3, h4, h5, h6, h7, h8, heq⟩ <;>
      rw [heq] <;>
      simp_all [OP_END, OP_INC, OP_DEC, OP_ADD, OP_SUB, OP_OUT, OP_IN, OP_JMP, OP_RET] <;>
      omega
  · intro hp
    rcases hdec with ⟨h0, heq⟩ | ⟨h0, hcond, heq⟩ | ⟨h0, hcond, heq⟩ | ⟨h0, hcond, heq⟩ |
      ⟨h0, hcond, heq⟩ | ⟨h0, heq⟩ | ⟨h0, heq⟩ | ⟨h0, heq⟩ | ⟨h0, heq⟩ | ⟨h0, hcond, heq⟩ |
      ⟨h0, hcond, heq⟩ | ⟨h0, hcond, heq⟩ | ⟨h0, hcond, heq⟩ |
      ⟨h0, h1, h2, h3, h4, h5, h6, h7, h8, heq⟩ <;>
      rw [heq] <;>
      simp_all [OP_END, OP_INC, OP_DEC, OP_ADD, OP_SUB, OP_OUT, OP_IN, OP_JMP, OP_RET] <;>
      omega
  · rcases hinc with ⟨h0, heq⟩ | ⟨h0, hcond, heq⟩ | ⟨h0, hcond, heq⟩ | ⟨h0, hcond, heq⟩ |
      ⟨h0, hcond, heq⟩ | ⟨h0, heq⟩ | ⟨h0, heq⟩ | ⟨h0, heq⟩ | ⟨h0, heq⟩ | ⟨h0, hcond, heq⟩ |
      ⟨h0, hcond, heq⟩ | ⟨h0, hcond, heq⟩ | ⟨h0, hcond, heq⟩ |
      ⟨h0, h1, h2, h3, h4, h5, h6, h7, h8, heq⟩ <;>
      rw [heq] <;>
      simp_all [OP_END, OP_INC, OP_DEC, OP_ADD, OP_SUB, OP_OUT, OP_IN, OP_JMP, OP_RET,
        DATA_SIZE] <;>
      omega
  · intro hp
    rcases hinc with ⟨h0, heq⟩ | ⟨h0, hcond, heq⟩ | ⟨h0, hcond, heq⟩ | ⟨h0, hcond, heq⟩ |
      ⟨h0, hcond, heq⟩ | ⟨h0, heq⟩ | ⟨h0, heq⟩ | ⟨h0, heq⟩ | ⟨h0, heq⟩ | ⟨h0, hcond, heq⟩ |
      ⟨h0, hcond, heq⟩ | ⟨h0, hcond, heq⟩ | ⟨h0, hcond, heq⟩ |
      ⟨h0, h1, h2, h3, h4, h5, h6, h7, h8, heq⟩ <;>
      rw [heq] <;>
      simp_all [OP_END, OP_INC, OP_DEC, OP_ADD, OP_SUB, OP_OUT, OP_IN, OP_JMP, OP_RET,
        DATA_SIZE] <;>
      omega

/-- C6 witness: at data pointer 1 a `<` succeeds and yields 0, and at
data pointer 0 it faults with a pointer underflow. -/
theorem pointer_bounds_exact_witness :
    ((dbg_interpret ⟨true, fun _ => 0, 0, 1⟩ ⟨OP_DEC, 0⟩ []).2.1 = StepOutcome.cont ∧
      (dbg_interpret ⟨true, fun _ => 0, 0, 1⟩ ⟨OP_DEC, 0⟩ []).1.ptr = 0) ∧
    ((dbg_interpret ⟨true, fun _ => 0, 0, 0⟩ ⟨OP_DEC, 0⟩ []).2.1 =
      StepOutcome.fault FaultKind.pointerUnderflow) :=
  ⟨(pointer_bounds_exact ⟨true, fun _ => 0, 0, 1⟩ 0 [] (by decide)).2.1 rfl,
   ((pointer_bounds_exact ⟨true, fun _ => 0, 0, 0⟩ 0 [] (by decide)).1).2 rfl⟩

/-- The stepping loop of `dbg_next` runs exactly `execCount` interpreter
steps, and its returned flag records whether a terminating step was
reached within the count. -/
lemma dbg_next_loop_char : ∀ (prog : program_t) (k : Nat) (rt : runtime_t) (inps : List Nat),
    dbg_next_loop prog k rt inps =
      ((iterSteps prog (execCount prog k rt inps) rt inps).1,
       (stepsUntilTerm prog k rt inps).isSome,
       (iterSteps prog (execCount prog k rt inps) rt inps).2) := by
  intro prog k
  induction k with
  | zero => intro rt inps; simp [dbg_next_loop, execCount, iterSteps, stepsUntilTerm]
  | succ n ih =>
    intro rt inps
    simp only [dbg_next_loop, execCount, stepsUntilTerm]
    by_cases ht :
        (dbg_interpret rt (prog.instructions rt.pc) inps).2.1 ≠ StepOutcome.cont
    · simp only [if_pos ht]
      simp [iterSteps]
    · simp only [if_neg ht]
      rw [ih]
      rw [Nat.one_add]
      cases hst : stepsUntilTerm prog n (dbg_interpret rt (prog.instructions rt.pc) inps).1
          (dbg_interpret rt (prog.instructions rt.pc) inps).2.2 <;>
        simp [hst, iterSteps]

/-- The number of steps `dbg_next`'s loop executes is the requested count
clipped at the distance to termination. -/
lemma execCount_min : ∀ (prog : program_t) (k : Nat) (rt : runtime_t) (inps : List Nat),
    execCount prog k rt inps = min k ((stepsUntilTerm prog k rt inps).getD k) := by
  intro prog k
  induction k with
  | zero => intro rt inps; simp [execCount, stepsUntilTerm]
  | succ n ih =>
    intro rt inps
    simp only [execCount, stepsUntilTerm]
    by_cases ht :
        (dbg_interpret rt (prog.instructions rt.pc) inps).2.1 ≠ StepOutcome.cont
    · simp only [if_pos ht]
      simp
    · simp only [if_neg ht]
      rw [ih]
      cases hst : stepsUntilTerm prog n (dbg_interpret rt (prog.instructions rt.pc) inps).1
          (dbg_interpret rt (prog.instructions rt.pc) inps).2.2 <;>
        simp [hst] <;> omega

/-- C7.  `next(0)` performs no execution and changes nothing; a negative
count is rejected before any execution with no state change; a
non-negative count runs the stepping loop, which executes exactly
`min(count, steps-until-halt-or-fault)` interpreter steps, stopping early
exactly when a halting or faulting step is reached within the count. -/
theorem next_step_count_semantics :
    ∀ (prog : program_t) (rt : runtime_t) (inps : List Nat),
      dbg_next prog 0 rt inps = (rt, false, inps) ∧
      (∀ count : Int, count < 0 → dbg_next prog count rt inps = (rt, false, inps)) ∧
      (∀ count : Int, 0 ≤ count →
        dbg_next prog count rt inps = dbg_next_loop prog count.toNat rt inps) ∧
      (∀ k : Nat, execCount prog k rt inps =
        min k ((stepsUntilTerm prog k rt inps).getD k)) ∧
      (∀ k : Nat, dbg_next_loop prog k rt inps =
        ((iterSteps prog (execCount prog k rt inps) rt inps).1,
         (stepsUntilTerm prog k rt inps).isSome,
         (iterSteps prog (execCount prog k rt inps) rt inps).2)) := by
  intro prog rt inps
  refine ⟨?_, ?_, ?_, ?_, ?_⟩
  · simp [dbg_next, dbg_next_loop]
  · intro count hc
    simp [dbg_next, hc]
  · intro count hc
    simp [dbg_next, not_lt.mpr hc]
  · intro k
    exact execCount_min prog k rt inps
  · intro k
    exact dbg_next_loop_char prog k rt inps

/-- C7 witness: `next(0)` on a fresh runtime changes nothing, and
`next(-1)` is rejected with no state change. -/
theorem next_step_count_semantics_witness :
    dbg_next initProgram 0 initRuntime [] = (initRuntime, false, []) ∧
    dbg_next initProgram (-1) initRuntime [] = (initRuntime, false, []) :=
  ⟨(next_step_count_semantics initProgram initRuntime []).1,
   (next_step_count_semantics initProgram initRuntime []).2.1 (-1) (by decide)⟩

/-- C8.  An in-range `jump(i)` (with `1 ≤ i ≤ instr_count`, and
`instr_count` within its `unsigned short` range as it always is in the C
program) writes `i - 1` into the program counter and nothing else — tape,
data pointer and running flag are untouched and no instruction runs — so
a following `next(1)` interprets the instruction at slot `i - 1`; an
out-of-range index leaves the whole runtime unchanged. -/
theorem jump_pure_register_write :
    ∀ (prog : program_t) (i : Int) (rt : runtime_t) (inps : List Nat),
      (1 ≤ i → i ≤ (prog.instr_count : Int) → prog.instr_count ≤ USHORT_MOD →
        (dbg_jump prog i rt).pc = (i - 1).toNat ∧
        (dbg_jump prog i rt).ptr = rt.ptr ∧
        (dbg_jump prog i rt).data = rt.data ∧
        (dbg_jump prog i rt).running = rt.running ∧
        dbg_next_loop prog 1 (dbg_jump prog i rt) inps =
          (if (dbg_interpret (dbg_jump prog i rt)
                (prog.instructions (i - 1).toNat) inps).2.1 ≠ StepOutcome.cont then
            ((dbg_interpret (dbg_jump prog i rt) (prog.instructions (i - 1).toNat) inps).1,
             true,
             (dbg_interpret (dbg_jump prog i rt) (prog.instructions (i - 1).toNat) inps).2.2)
          else
            ((dbg_interpret (dbg_jump prog i rt) (prog.instructions (i - 1).toNat) inps).1,
             false,
             (dbg_interpret (dbg_jump prog i rt) (prog.instructions (i - 1).toNat) inps).2.2))) ∧
      ((i < 1 ∨ (prog.instr_count : Int) < i) → dbg_jump prog i rt = rt) := by
  intro prog i rt inps
  constructor
  · intro h1 h2 h3
    have h3' : prog.instr_count ≤ 65536 := by simpa [USHORT_MOD] using h3
    have hcond : ¬ (i < 1 ∨ i > (prog.instr_count : Int)) := by omega
    have hmod : (i - 1).toNat % USHORT_MOD = (i - 1).toNat := by
      have hlt : (i - 1).toNat < 65536 := by omega
      exact Nat.mod_eq_of_lt (by simpa [USHORT_MOD] using hlt)
    have hj : dbg_jump prog i rt = { rt with pc := (i - 1).toNat } := by
      unfold dbg_jump
      rw [if_neg hcond, hmod]
    refine ⟨by rw [hj], by rw [hj], by rw [hj], by rw [hj], ?_⟩
    rw [hj]
    simp only [dbg_next_loop]
  · intro h
    unfold dbg_jump
    rw [if_pos h]

/-- C8 witness: in a two-instruction program, `jump(2)` moves the program
counter to slot 1 and leaves the data pointer at its prior value. -/
theorem jump_pure_register_write_witness :
    (dbg_jump ⟨fun _ => ⟨OP_ADD, 0⟩, 2, []⟩ 2 ⟨true, fun _ => 0, 0, 7⟩).pc =
      ((2 : Int) - 1).toNat ∧
    (dbg_jump ⟨fun _ => ⟨OP_ADD, 0⟩, 2, []⟩ 2 ⟨true, fun _ => 0, 0, 7⟩).ptr = 7 :=
  have h := (jump_pure_register_write ⟨fun _ => ⟨OP_ADD, 0⟩, 2, []⟩ 2
    ⟨true, fun _ => 0, 0, 7⟩ []).1 (by decide) (by decide) (by decide)
  ⟨h.1, h.2.1⟩

/-- One interpreter step keeps the data pointer inside the tape. -/
lemma interpret_ptr_lt (rt : runtime_t) (ins : instruction_t) (inps : List Nat)
    (h : rt.ptr < DATA_SIZE) : (dbg_interpret rt ins inps).1.ptr < DATA_SIZE := by
  rcases dbg_interpret_cases rt ins inps with ⟨h0, heq⟩ | ⟨h0, hcond, heq⟩ |
    ⟨h0, hcond, heq⟩ | ⟨h0, hcond, heq⟩ | ⟨h0, hcond, heq⟩ | ⟨h0, heq⟩ | ⟨h0, heq⟩ |
    ⟨h0, heq⟩ | ⟨h0, heq⟩ | ⟨h0, hcond, heq⟩ | ⟨h0, hcond, heq⟩ | ⟨h0, hcond, heq⟩ |
    ⟨h0, hcond, heq⟩ | ⟨h0, h1, h2, h3, h4, h5, h6, h7, h8, heq⟩ <;>
    rw [heq] <;> simp_all <;> omega

/-- The stepping loop keeps the data pointer inside the tape. -/
lemma next_loop_ptr_lt (prog : program_t) :
    ∀ (k : Nat) (rt : runtime_t) (inps : List Nat),
      rt.ptr < DATA_SIZE → (dbg_next_loop prog k rt inps).1.ptr < DATA_SIZE := by
  intro k
  induction k with
  | zero => intro rt inps h; simpa [dbg_next_loop] using h
  | succ n ih =>
    intro rt inps h
    simp only [dbg_next_loop]
    by_cases ht :
        (dbg_interpret rt (prog.instructions rt.pc) inps).2.1 ≠ StepOutcome.cont
    · simp only [if_pos ht]
      exact interpret_ptr_lt rt (prog.instructions rt.pc) inps h
    · simp only [if_neg ht]
      exact ih _ _ (interpret_ptr_lt rt (prog.instructions rt.pc) inps h)

/-- `dbg_next` keeps the data pointer inside the tape. -/
lemma dbg_next_ptr_lt (prog : program_t) (count : Int) (rt : runtime_t) (inps : List Nat)
    (h : rt.ptr < DATA_SIZE) : (dbg_next prog count rt inps).1.ptr < DATA_SIZE := by
  unfold dbg_next
  split
  · exact h
  · exact next_loop_ptr_lt prog count.toNat rt inps h

/-- The loop of `cmd_continue` keeps the data pointer inside the tape. -/
lemma continue_loop_ptr_lt (prog : program_t) :
    ∀ (fuel : Nat) (rt : runtime_t) (inps : List Nat),
      rt.ptr < DATA_SIZE → (cmd_continue_loop prog fuel rt inps).1.ptr < DATA_SIZE := by
  intro fuel
  induction fuel with
  | zero => intro rt inps h; simpa [cmd_continue_loop] using h
  | succ n ih =>
    intro rt inps h
    simp only [cmd_continue_loop]
    by_cases ht : (dbg_next prog 1 rt inps).2.1
    · simp only [if_pos ht]
      exact dbg_next_ptr_lt prog 1 rt inps h
    · simp only [if_neg ht]
      exact ih _ _ (dbg_next_ptr_lt prog 1 rt inps h)

/-- C10.  In every runtime state reachable from `run()` through step,
jump, continue and inspection operations the data pointer stays below
`DATA_SIZE`, so every tape access `data[data_pointer]` the interpreter
performs is inside the tape. -/
theorem data_pointer_invariant :
    ∀ (prog : program_t) (rt : runtime_t), Reachable prog rt → rt.ptr < DATA_SIZE := by
  intro prog rt h
  induction h with
  | run rt0 => simp [dbg_run, DATA_SIZE]
  | next rt0 count inps _ ih => exact dbg_next_ptr_lt prog count rt0 inps ih
  | jump rt0 index _ ih =>
    unfold dbg_jump
    split
    · exact ih
    · simpa using ih
  | cont rt0 fuel inps _ ih =>
    unfold cmd_continue
    split
    · exact continue_loop_ptr_lt prog fuel rt0 inps ih
    · exact ih
  | dataptr rt0 _ ih => exact ih
  | print rt0 index _ ih => exact ih
  | tape rt0 _ ih => exact ih

/-- C10 witness: the state produced by `run()` is reachable and its data
pointer is inside the tape. -/
theorem data_pointer_invariant_witness : (dbg_run initRuntime).ptr < DATA_SIZE :=
  data_pointer_invariant initProgram (dbg_run initRuntime) (Reachable.run initRuntime)

/-- Operator field after an operator write. -/
lemma writeOperator_op (f : Nat → instruction_t) (i v j : Nat) :
    ((writeOperator f i v) j).operator = if j = i then v % USHORT_MOD else (f j).operator := by
  unfold writeOperator
  split <;> rfl

/-- An operand write does not change any operator field. -/
lemma writeOperand_op (f : Nat → instruction_t) (i v j : Nat) :
    ((writeOperand f i v) j).operator = (f j).operator := by
  unfold writeOperand
  split
  · next hj => rw [hj]
  · rfl

/-- The opcode a plain (non-bracket) operator character compiles to. -/
def simpleGlyph (c : Char) : Option Nat :=
  if c = '>' then some OP_INC
  else if c = '<' then some OP_DEC
  else if c = '+' then some OP_ADD
  else if c = '-' then some OP_SUB
  else if c = '.' then some OP_OUT
  else if c = ',' then some OP_IN
  else none

/-- Every character is a plain operator glyph, a bracket, or skipped. -/
lemma glyph_class (c : Char) :
    (∃ v, simpleGlyph c = some v) ∨ c = '[' ∨ c = ']' ∨
    (simpleGlyph c = none ∧ c ≠ '[' ∧ c ≠ ']') := by
  unfold simpleGlyph
  split_ifs with h1 h2 h3 h4 h5 h6 <;> simp_all
  · by_cases hb1 : c = '['
    · exact Or.inl hb1
    · by_cases hb2 : c = ']'
      · exact Or.inr (Or.inl hb2)
      · exact Or.inr (Or.inr ⟨hb1, hb2⟩)

/-- Step equation for a plain operator character, over destructured
state components. -/
lemma compileStep_simple_eq (ins : Nat → instruction_t) (cnt : Nat) (stk : List Nat)
    (pc line col : Nat) {c : Char} {v : Nat} (h : simpleGlyph c = some v) :
    compileStep c ⟨⟨ins, cnt, stk⟩, pc, line, col⟩ =
      .ok ⟨⟨writeOperator ins pc v, cnt, stk⟩, (pc + 1) % USHORT_MOD,
           nextLine c line, nextCol c col⟩ := by
  unfold simpleGlyph at h
  split_ifs at h with h1 h2 h3 h4 h5 h6 <;> cases h <;> subst c <;> simp [compileStep]

/-- Step equation for `[` with a full bracket stack. -/
lemma compileStep_open_full (ins : Nat → instruction_t) (cnt : Nat) (stk : List Nat)
    (pc line col : Nat) (h : stk.length = STACK_SIZE) :
    compileStep '[' ⟨⟨ins, cnt, stk⟩, pc, line, col⟩ =
      .error (⟨writeOperator ins pc OP_JMP, cnt, stk⟩,
              ⟨.loopNestingOverflow, some (line, col)⟩) := by
  simp [compileStep, h]

/-- Step equation for `[` with room on the bracket stack. -/
lemma compileStep_open_ok (ins : Nat → instruction_t) (cnt : Nat) (stk : List Nat)
    (pc line col : Nat) (h : ¬ stk.length = STACK_SIZE) :
    compileStep '[' ⟨⟨ins, cnt, stk⟩, pc, line, col⟩ =
      .ok ⟨⟨writeOperator ins pc OP_JMP, cnt, pc :: stk⟩, (pc + 1) % USHORT_MOD,
           nextLine '[' line, nextCol '[' col⟩ := by
  simp [compileStep, h]

/-- Step equation for `]` with an empty bracket stack. -/
lemma compileStep_close_nil (ins : Nat → instruction_t) (cnt : Nat)
    (pc line col : Nat) :
    compileStep ']' ⟨⟨ins, cnt, []⟩, pc, line, col⟩ =
      .error (⟨ins, cnt, []⟩, ⟨.unmatchedCloseBracket, some (line, col)⟩) := by
  simp [compileStep]

/-- Step equation for `]` with a pending `[` slot on the stack. -/
lemma compileStep_close_cons (ins : Nat → instruction_t) (cnt : Nat) (j : Nat)
    (rest : List Nat) (pc line col : Nat) :
    compileStep ']' ⟨⟨ins, cnt, j :: rest⟩, pc, line, col⟩ =
      .ok ⟨⟨writeOperator (writeOperand (writeOperator ins pc OP_RET) pc j) j pc, cnt, rest⟩,
           (pc + 1) % USHORT_MOD, nextLine ']' line, nextCol ']' col⟩ := by
  simp [compileStep]

/-- Step equation for a skipped character. -/
lemma compileStep_skip (ins : Nat → instruction_t) (cnt : Nat) (stk : List Nat)
    (pc line col : Nat) {c : Char}
    (h0 : simpleGlyph c = none) (h1 : c ≠ '[') (h2 : c ≠ ']') :
    compileStep c ⟨⟨ins, cnt, stk⟩, pc, line, col⟩ =
      .ok ⟨⟨ins, cnt, stk⟩, ((pc + (USHORT_MOD - 1)) % USHORT_MOD + 1) % USHORT_MOD,
           nextLine c line, nextCol c col⟩ := by
  unfold simpleGlyph at h0
  split_ifs at h0 with g1 g2 g3 g4 g5 g6
  simp [compileStep, g1, g2, g3, g4, g5, g6, h1, h2]

/-- Lockstep run of one `compileStep` on two states that agree on `pc`,
position and stack, and whose instruction arrays agree on the operators
of the already compiled slots: both steps take the same branch, fail with
the same error, or advance identically preserving the agreement. -/
lemma compileStep_lockstep (c : Char) (st1 st2 : CompSt)
    (hpc : st1.pc = st2.pc) (hline : st1.line = st2.line) (hcol : st1.col = st2.col)
    (hstk : st1.prog.stack = st2.prog.stack)
    (hops : ∀ i, i < st1.pc →
      (st1.prog.instructions i).operator = (st2.prog.instructions i).operator)
    (hstkb : ∀ j ∈ st1.prog.stack, j < st1.pc)
    (hlt : st1.pc < PROGRAM_SIZE) :
    (∃ p1 p2 e, compileStep c st1 = .error (p1, e) ∧ compileStep c st2 = .error (p2, e) ∧
       p1.stack = p2.stack ∧
       (∀ i, i < st1.pc → (p1.instructions i).operator = (p2.instructions i).operator)) ∨
    (∃ t1 t2, compileStep c st1 = .ok t1 ∧ compileStep c st2 = .ok t2 ∧
       t1.pc = t2.pc ∧ t1.line = t2.line ∧ t1.col = t2.col ∧
       t1.prog.stack = t2.prog.stack ∧
       (∀ i, i < t1.pc →
         (t1.prog.instructions i).operator = (t2.prog.instructions i).operator) ∧
       (∀ j ∈ t1.prog.stack, j < t1.pc) ∧
       st1.pc ≤ t1.pc ∧ t1.pc ≤ st1.pc + 1) := by
  obtain ⟨⟨ins1, cnt1, stk1⟩, pc1, l1, co1⟩ := st1
  obtain ⟨⟨ins2, cnt2, stk2⟩, pc2, l2, co2⟩ := st2
  simp only at hpc hline hcol hstk hops hstkb hlt ⊢
  subst hpc
  subst hline
  subst hcol
  subst hstk
  have hinc := pc_inc_eq pc1 hlt
  rcases glyph_class c with ⟨v, hv⟩ | hc | hc | ⟨hv, hb1, hb2⟩
  · -- plain operator glyph
    rw [compileStep_simple_eq ins1 cnt1 stk1 pc1 l1 co1 hv,
        compileStep_simple_eq ins2 cnt2 stk1 pc1 l1 co1 hv]
    refine Or.inr ⟨_, _, rfl, rfl, rfl, rfl, rfl, rfl, ?_, ?_, ?_, ?_⟩ <;>
      simp only [CompSt.pc, hinc]
    · intro i hi
      rw [writeOperator_op, writeOperator_op]
      rcases Nat.lt_succ_iff_lt_or_eq.mp hi with hi' | hi'
      · rw [if_neg (by omega), if_neg (by omega)]
        exact hops i hi'
      · rw [if_pos hi', if_pos hi']
    · intro j hj
      exact Nat.lt_succ_of_lt (hstkb j hj)
    · omega
    · omega
  · -- the character is an opening bracket
    subst hc
    by_cases hfull : stk1.length = STACK_SIZE
    · rw [compileStep_open_full ins1 cnt1 stk1 pc1 l1 co1 hfull,
          compileStep_open_full ins2 cnt2 stk1 pc1 l1 co1 hfull]
      refine Or.inl ⟨_, _, _, rfl, rfl, rfl, ?_⟩
      intro i hi
      rw [writeOperator_op, writeOperator_op, if_neg (by omega), if_neg (by omega)]
      exact hops i hi
    · rw [compileStep_open_ok ins1 cnt1 stk1 pc1 l1 co1 hfull,
          compileStep_open_ok ins2 cnt2 stk1 pc1 l1 co1 hfull]
      refine Or.inr ⟨_, _, rfl, rfl, rfl, rfl, rfl, rfl, ?_, ?_, ?_, ?_⟩ <;>
        simp only [CompSt.pc, hinc]
      · intro i hi
        rw [writeOperator_op, writeOperator_op]
        rcases Nat.lt_succ_iff_lt_or_eq.mp hi with hi' | hi'
        · rw [if_neg (by omega), if_neg (by omega)]
          exact hops i hi'
        · rw [if_pos hi', if_pos hi']
      · intro j hj
        rcases List.mem_cons.mp hj with hj' | hj'
        · omega
        · exact Nat.lt_succ_of_lt (hstkb j hj')
      · omega
      · omega
  · -- the character is a closing bracket
    subst hc
    rcases hstk1 : stk1 with _ | ⟨j, rest⟩
    · rw [compileStep_close_nil ins1 cnt1 pc1 l1 co1,
          compileStep_close_nil ins2 cnt2 pc1 l1 co1]
      refine Or.inl ⟨_, _, _, rfl, rfl, rfl, ?_⟩
      intro i hi
      exact hops i hi
    · have hjlt : j < pc1 := hstkb j (by rw [hstk1]; exact List.mem_cons_self j rest)
      rw [compileStep_close_cons ins1 cnt1 j rest pc1 l1 co1,
          compileStep_close_cons ins2 cnt2 j rest pc1 l1 co1]
      refine Or.inr ⟨_, _, rfl, rfl, rfl, rfl, rfl, rfl, ?_, ?_, ?_, ?_⟩ <;>
        simp only [CompSt.pc, hinc]
      · intro i hi
        rw [writeOperator_op, writeOperator_op]
        by_cases hij : i = j
        · rw [if_pos hij, if_pos hij]
        · rw [if_neg hij, if_neg hij, writeOperand_op, writeOperand_op,
              writeOperator_op, writeOperator_op]
          rcases Nat.lt_succ_iff_lt_or_eq.mp hi with hi' | hi'
          · rw [if_neg (by omega), if_neg (by omega)]
            exact hops i hi'
          · rw [if_pos hi', if_pos hi']
      · intro j' hj'
        have hmem : j' ∈ stk1 := by rw [hstk1]; exact List.mem_cons_of_mem j hj'
        exact Nat.lt_succ_of_lt (hstkb j' hmem)
      · omega
      · omega
  · -- skipped character
    rw [compileStep_skip ins1 cnt1 stk1 pc1 l1 co1 hv hb1 hb2,
        compileStep_skip ins2 cnt2 stk1 pc1 l1 co1 hv hb1 hb2]
    refine Or.inr ⟨_, _, rfl, rfl, rfl, rfl, rfl, rfl, ?_, ?_, ?_, ?_⟩ <;>
      simp only [CompSt.pc, pc_skip_eq pc1 hlt]
    · intro i hi
      exact hops i hi
    · intro j hj
      exact hstkb j hj
    · omega
    · omega

/-- Lockstep run of the whole scanning loop: from two starting states
that agree on everything but the residual instruction contents, the loop
produces the same failure (if any), the same `pc`, position and stack,
and instruction arrays agreeing on the operators of all compiled slots. -/
lemma compileLoop_lockstep : ∀ (cs : List Char) (st1 st2 : CompSt),
    st1.pc = st2.pc → st1.line = st2.line → st1.col = st2.col →
    st1.prog.stack = st2.prog.stack →
    (∀ i, i < st1.pc →
      (st1.prog.instructions i).operator = (st2.prog.instructions i).operator) →
    (∀ j ∈ st1.prog.stack, j < st1.pc) →
    st1.pc ≤ PROGRAM_SIZE →
    (compileLoop cs st1).2 = (compileLoop cs st2).2 ∧
    (compileLoop cs st1).1.pc = (compileLoop cs st2).1.pc ∧
    (compileLoop cs st1).1.line = (compileLoop cs st2).1.line ∧
    (compileLoop cs st1).1.col = (compileLoop cs st2).1.col ∧
    (compileLoop cs st1).1.prog.stack = (compileLoop cs st2).1.prog.stack ∧
    (∀ i, i < (compileLoop cs st1).1.pc →
      ((compileLoop cs st1).1.prog.instructions i).operator =
      ((compileLoop cs st2).1.prog.instructions i).operator) := by
  intro cs
  induction cs with
  | nil =>
    intro st1 st2 hpc hline hcol hstk hops hstkb hle
    exact ⟨rfl, hpc, hline, hcol, hstk, hops⟩
  | cons c cs ih =>
    intro st1 st2 hpc hline hcol hstk hops hstkb hle
    by_cases hlt : st1.pc < PROGRAM_SIZE
    · have hlt2 : st2.pc < PROGRAM_SIZE := hpc ▸ hlt
      rcases compileStep_lockstep c st1 st2 hpc hline hcol hstk hops hstkb hlt with
        ⟨p1, p2, e, he1, he2, hpstk, hpops⟩ | ⟨t1, t2, ho1, ho2, htpc, htl, htc, htstk, htops, htb, hmo, hhi⟩
      · have hr1 : compileLoop (c :: cs) st1 = (⟨p1, st1.pc, st1.line, st1.col⟩, some e) := by
          simp [compileLoop, hlt, he1]
        have hr2 : compileLoop (c :: cs) st2 = (⟨p2, st2.pc, st2.line, st2.col⟩, some e) := by
          simp [compileLoop, hlt2, he2]
        rw [hr1, hr2]
        exact ⟨rfl, hpc, hline, hcol, hpstk, fun i hi => hpops i hi⟩
      · have hr1 : compileLoop (c :: cs) st1 = compileLoop cs t1 := by
          simp [compileLoop, hlt, ho1]
        have hr2 : compileLoop (c :: cs) st2 = compileLoop cs t2 := by
          simp [compileLoop, hlt2, ho2]
        rw [hr1, hr2]
        exact ih t1 t2 htpc htl htc htstk htops htb (by omega)
    · have hlt2 : ¬ st2.pc < PROGRAM_SIZE := hpc ▸ hlt
      have hr1 : compileLoop (c :: cs) st1 = (st1, none) := by simp [compileLoop, hlt]
      have hr2 : compileLoop (c :: cs) st2 = (st2, none) := by simp [compileLoop, hlt2]
      rw [hr1, hr2]
      exact ⟨rfl, hpc, hline, hcol, hstk, hops⟩

/-- C3 (amended).  From an empty compile-time bracket stack — the state
initially and after every successful load — compiling a source is
deterministic in everything the compilation itself writes: two
compilations of the same source from any two such program states produce
the same error (or both succeed), and on success the same instruction
count and the same operators over all `instr_count` slots, so two such
loads agree on whether the session becomes loaded.  Operand fields of
slots this compilation does not write retain the previous program's
values, so full Program identity does not hold. -/
theorem compile_deterministic :
    ∀ (s : List Char) (p1 p2 : program_t),
      p1.stack = [] → p2.stack = [] →
      (compile s p1).err = (compile s p2).err ∧
      ((compile s p1).err = none →
        (compile s p1).prog.instr_count = (compile s p2).prog.instr_count ∧
        ∀ i, i < (compile s p1).prog.instr_count →
          ((compile s p1).prog.instructions i).operator =
          ((compile s p2).prog.instructions i).operator) ∧
      (∀ (l1 l2 : Bool) (rt1 rt2 : runtime_t),
        (dbg_load (some s) ⟨p1, l1, rt1⟩).loaded =
        (dbg_load (some s) ⟨p2, l2, rt2⟩).loaded) := by
  intro s p1 p2 h1 h2
  have base := compileLoop_lockstep s ⟨p1, 0, 1, 1⟩ ⟨p2, 0, 1, 1⟩ rfl rfl rfl
    (by simp only [h1, h2]) (by intro i hi; simp at hi)
    (by intro j hj; simp [h1] at hj) (by simp [PROGRAM_SIZE])
  rcases hr1 : compileLoop s ⟨p1, 0, 1, 1⟩ with ⟨L1, e1⟩
  rcases hr2 : compileLoop s ⟨p2, 0, 1, 1⟩ with ⟨L2, e2⟩
  rw [hr1, hr2] at base
  obtain ⟨herr, hLpc, hLline, hLcol, hLstk, hLops⟩ := base
  simp only at herr hLpc hLline hLcol hLstk hLops
  have herr2 : (compile s p1).err = (compile s p2).err ∧
      ((compile s p1).err = none →
        (compile s p1).prog.instr_count = (compile s p2).prog.instr_count ∧
        ∀ i, i < (compile s p1).prog.instr_count →
          ((compile s p1).prog.instructions i).operator =
          ((compile s p2).prog.instructions i).operator) := by
    cases e1 with
    | some e =>
      have he2 : e2 = some e := by rw [← herr]
      subst he2
      constructor
      · simp [compile, hr1, hr2]
      · intro hnone
        rw [show (compile s p1).err = some e by simp [compile, hr1]] at hnone
        exact absurd hnone (by simp)
    | none =>
      have he2 : e2 = none := by rw [← herr]
      subst he2
      by_cases hfull : L1.pc = PROGRAM_SIZE
      · have hfull2 : L2.pc = PROGRAM_SIZE := hLpc ▸ hfull
        constructor
        · simp [compile, hr1, hr2, hfull, hfull2, hLline, hLcol]
        · intro hnone
          rw [show (compile s p1).err = some ⟨.programTooLarge, some (L1.line, L1.col)⟩ by
            simp [compile, hr1, hfull]] at hnone
          exact absurd hnone (by simp)
      · have hfull2 : ¬ L2.pc = PROGRAM_SIZE := hLpc ▸ hfull
        by_cases hstk0 : L1.prog.stack.length = 0
        · have hstk02 : L2.prog.stack.length = 0 := hLstk ▸ hstk0
          have hc1 : compile s p1 = ⟨{ L1.prog with instructions := writeOperator L1.prog.instructions L1.pc OP_END, instr_count := L1.pc + 1 }, none⟩ := by
            simp [compile, hr1, hfull, hstk0]
          have hc2 : compile s p2 = ⟨{ L2.prog with instructions := writeOperator L2.prog.instructions L2.pc OP_END, instr_count := L2.pc + 1 }, none⟩ := by
            simp [compile, hr2, hfull2, hstk02]
          rw [hc1, hc2]
          refine ⟨rfl, ?_⟩
          intro _
          refine ⟨by simp [hLpc], ?_⟩
          intro i hi
          simp only at hi ⊢
          rw [writeOperator_op, writeOperator_op, ← hLpc]
          by_cases hie : i = L1.pc
          · rw [if_pos hie, if_pos hie]
          · rw [if_neg hie, if_neg hie]
            exact hLops i (by omega)
        · have hstk02 : ¬ L2.prog.stack.length = 0 := hLstk ▸ hstk0
          constructor
          · simp [compile, hr1, hr2, hfull, hfull2, hstk0, hstk02]
          · intro hnone
            rw [show (compile s p1).err = some ⟨.unmatchedOpenBracket, none⟩ by
              simp [compile, hr1, hfull, hstk0]] at hnone
            exact absurd hnone (by simp)
  refine ⟨herr2.1, herr2.2, ?_⟩
  intro l1 l2 rt1 rt2
  simp [dbg_load, herr2.1]

/-- C3 witness: compiling `+` from the pristine program and from a
program full of residue produces the same compile outcome. -/
theorem compile_deterministic_witness :
    (compile ['+'] initProgram).err = (compile ['+'] ⟨fun _ => ⟨9, 7⟩, 5, []⟩).err :=
  (compile_deterministic ['+'] initProgram ⟨fun _ => ⟨9, 7⟩, 5, []⟩ rfl rfl).1

/-- C3 counterexample to the claim as stated: loading `....` freshly and
loading it right after a successful load of `++[]` both succeed, yet the
installed Programs differ — slot 3's operand is 0 in one and 2 (residue
of the earlier load) in the other. -/
theorem reload_operand_residue :
    (dbg_load (some ['.', '.', '.', '.']) initDbg).loaded = true ∧
    (dbg_load (some ['.', '.', '.', '.'])
      (dbg_load (some ['+', '+', '[', ']']) initDbg)).loaded = true ∧
    ((dbg_load (some ['.', '.', '.', '.']) initDbg).program.instructions 3).operand = 0 ∧
    ((dbg_load (some ['.', '.', '.', '.'])
      (dbg_load (some ['+', '+', '[', ']']) initDbg)).program.instructions 3).operand = 2 ∧
    (dbg_load (some ['.', '.', '.', '.']) initDbg).program.instructions 3 ≠
      (dbg_load (some ['.', '.', '.', '.'])
        (dbg_load (some ['+', '+', '[', ']']) initDbg)).program.instructions 3 := by
  refine ⟨by decide, by decide, by decide, by decide, by decide⟩

end Bfdb
